import Mathlib

/-!
# Verification of the firststreetbackend repository/service layer

Shallow embedding of the order-management backend's core (validation utilities,
entity self-validation, generic CRUD/soft-delete repository, and service
orchestration) together with theorems settling the specification claims.

Conventions of the embedding:
* Python `str` is Lean `String`; character-level work happens on `String.data`.
* Python `date`/`datetime` values are `Nat` (days/ticks); only their order matters.
* Database `NULL` / Python `None` is `Option.none`; a nullable column is an `Option`.
* The persistent store is a `List` of rows; `commit` of an insert/update is a pure
  function that first runs the model's `before_insert`/`before_update` validation
  hook and then the store's unique-constraint checks, mirroring the SQLAlchemy
  event listeners declared in `app/models/user.py` and `app/models/order.py`.
* Python exceptions are an explicit error type carried in `Except`:
  `ValueError` (validation / conflict pre-check), `KeyError` (missing dict key)
  and the storage layer's `IntegrityError` (unique-constraint violation) are the
  cases the embedded code paths can raise.  The `except ... log ... raise` blocks
  of `BaseService`/`BaseRepository` re-raise unchanged, so they are the identity
  on the error value.
* The `Order` model is embedded with the subset of its columns that the claims
  mention (`log`, `cust`, `title`, `logtype`, the four key dates, `rush`,
  `deleted_at`); `validate_and_sanitize_order_data` and `Order.validate_data`
  are embedded for exactly those fields.
-/

namespace FirstStreet

/-! ## Python string and regex primitives (`app/utils/validation.py` helpers) -/

/-- Characters of the regex class `[A-Za-z0-9]`. -/
def isAlnumChar (c : Char) : Bool :=
  ('A' ≤ c && c ≤ 'Z') || ('a' ≤ c && c ≤ 'z') || ('0' ≤ c && c ≤ '9')

/-- Characters of the regex class `[A-Za-z]`. -/
def isAlphaChar (c : Char) : Bool :=
  ('A' ≤ c && c ≤ 'Z') || ('a' ≤ c && c ≤ 'z')

/-- Characters of the username regex class `[A-Za-z0-9_.\-]`. -/
def isUsernameChar (c : Char) : Bool :=
  isAlnumChar c || c == '_' || c == '.' || c == '-'

/-- ASCII whitespace stripped by Python's `str.strip()`. -/
def isPySpace (c : Char) : Bool :=
  c == ' ' || c == '\t' || c == '\n' || c == '\r' || c == '\x0b' || c == '\x0c'

/-- Python `str.strip()`: drop whitespace from both ends. -/
def pyStrip (l : List Char) : List Char :=
  ((l.dropWhile isPySpace).reverse.dropWhile isPySpace).reverse

/-- One character of `html.escape` (quote=True): `&`, `<`, `>`, `"`, `'` are
replaced by entities, everything else is kept. -/
def htmlEscapeChar (c : Char) : List Char :=
  if c == '&' then "&amp;".data
  else if c == '<' then "&lt;".data
  else if c == '>' then "&gt;".data
  else if c == '"' then "&quot;".data
  else if c == '\'' then "&#x27;".data
  else [c]

/-- `sanitize_string` on a genuine (non-None) string:
`html.escape(str(value).strip())`. -/
def pySanitize (s : String) : String :=
  String.mk ((pyStrip s.data).flatMap htmlEscapeChar)

/-- `sanitize_string(value)`: `None` input gives `None` output, otherwise strip
and HTML-escape. -/
def sanitize_string (value : Option String) : Option String :=
  value.map pySanitize

/-- Python `str.lower()` (ASCII fragment). -/
def pyLower (s : String) : String :=
  String.mk (s.data.map Char.toLower)

/-- Drop one trailing newline, if present.  Python's `$` anchor (without
`re.MULTILINE`) matches at the end of the string *or just before a newline at
the end of the string*, so `re.match(p + "$", s)` sees `s` up to one final
`'\n'`. -/
def stripTrailingNewline (l : List Char) : List Char :=
  if l.getLast? = some '\n' then l.dropLast else l

/-- `bool(re.match("^[cls]+$", s))` for a single character class `cls`,
with Python's dollar-before-final-newline semantics. -/
def pyMatchPlusDollar (cls : Char → Bool) (s : String) : Bool :=
  let core := stripTrailingNewline s.data
  !core.isEmpty && core.all cls

/-- `validate_alphanumeric(value, allow_empty=False)` from
`app/utils/validation.py`: `None` or `""` yields `allow_empty`, otherwise
`bool(re.match("^[A-Za-z0-9]+$", value))`. -/
def validate_alphanumeric (value : Option String) (allow_empty : Bool) : Bool :=
  match value with
  | none => allow_empty
  | some s => if s = "" then allow_empty else pyMatchPlusDollar isAlnumChar s

/-- `validate_length(value, min_length, max_length)`:
`None` counts as length 0 (valid iff `min_length == 0`), `max_length = None`
means unbounded. -/
def validate_length (value : Option String) (minLength : Nat) (maxLength : Option Nat) : Bool :=
  match value with
  | none => minLength == 0
  | some s =>
    minLength ≤ s.length &&
      (match maxLength with
       | some m => s.length ≤ m
       | none => true)

/-- `validate_date_not_in_past(value)`: `None` is valid, otherwise
`value >= date.today()`; `today` is passed explicitly. -/
def validate_date_not_in_past (today : Nat) (value : Option Nat) : Bool :=
  match value with
  | none => true
  | some d => today ≤ d

/-- `validate_date_range(start_date, end_date)`: valid when either bound is
`None` or `end >= start`. -/
def validate_date_range (startDate endDate : Option Nat) : Bool :=
  match startDate, endDate with
  | some s, some e => s ≤ e
  | _, _ => true

/-- Characters of the email local-part class `[a-zA-Z0-9._%+-]`. -/
def isEmailLocalChar (c : Char) : Bool :=
  isAlnumChar c || c == '.' || c == '_' || c == '%' || c == '+' || c == '-'

/-- Characters of the email domain class `[a-zA-Z0-9.-]`. -/
def isEmailDomainChar (c : Char) : Bool :=
  isAlnumChar c || c == '.' || c == '-'

/-- `bool(re.match(r"^[a-zA-Z0-9._%+-]+@[a-zA-Z0-9.-]+\.[a-zA-Z]\x7b2,\x7d$", value))`
from `User._validate_email`.  Both character classes exclude `@`, so the local
part is exactly the text before the first `@` and no second `@` may occur; the
top-level-domain part `[a-zA-Z]` repeated twice or more is anchored at the end,
so the literal dot before it is the last dot of the string (with `$` again
tolerating one trailing newline). -/
def emailMatches (s : String) : Bool :=
  let l := stripTrailingNewline s.data
  let localPart := l.takeWhile (fun c => c != '@')
  let rest := l.dropWhile (fun c => c != '@')
  match rest with
  | [] => false
  | _ :: r =>
    if r.any (fun c => c == '@') then false
    else
      let tld := (r.reverse.takeWhile isAlphaChar).reverse
      let stem := (r.reverse.drop tld.length).reverse
      !localPart.isEmpty && localPart.all isEmailLocalChar &&
        2 ≤ tld.length &&
        (match stem.getLast? with
         | some '.' => !stem.dropLast.isEmpty && stem.dropLast.all isEmailDomainChar
         | _ => false)

/-! ## Error model -/

/-- Storage-layer errors: SQLAlchemy raises `IntegrityError` when a unique
index rejects a row; the violated column is recorded. -/
inductive DBError where
  | uniqueViolation (field : String)
deriving DecidableEq, Repr

/-- Python exceptions raised by the embedded code paths. -/
inductive AppError where
  | valueError (msg : String)
  | keyError (key : String)
  | dbError (err : DBError)
deriving DecidableEq, Repr

/-- True exactly for the typed conflict error the service pre-checks raise
(a `ValueError` with a descriptive message). -/
def isServiceConflict : AppError → Bool
  | .valueError _ => true
  | _ => false

/-- Decidable equality on `Except`, to evaluate concrete outcomes. -/
instance {ε α : Type _} [DecidableEq ε] [DecidableEq α] : DecidableEq (Except ε α) := fun x y =>
  match x, y with
  | .error a, .error b =>
    if h : a = b then .isTrue (by rw [h]) else .isFalse (fun he => h (Except.error.inj he))
  | .ok a, .ok b =>
    if h : a = b then .isTrue (by rw [h]) else .isFalse (fun he => h (Except.ok.inj he))
  | .error _, .ok _ => .isFalse (fun he => Except.noConfusion he)
  | .ok _, .error _ => .isFalse (fun he => Except.noConfusion he)

/-- Python dict subscription `d[k]`: raises `KeyError` when the key is absent. -/
def pyDictGet (d : List (String × String)) (k : String) : Except AppError String :=
  match d.lookup k with
  | some v => .ok v
  | none => .error (.keyError k)

/-- Assignment `d[k] = v` on a dict rendered as an association list:
replace an existing binding, otherwise append. -/
def dictSet (d : List (String × String)) (k v : String) : List (String × String) :=
  if (d.lookup k).isSome then d.map (fun p => if p.1 == k then (k, v) else p)
  else d ++ [(k, v)]

/-! ## The `User` model (`app/models/user.py`) -/

/-- The columns of `User` the claims touch.  `username` and `email` are
declared `unique=True` in the schema, i.e. the unique index spans *all* rows,
soft-deleted ones included; `deleted_at = none` means active. -/
structure User where
  id : Nat
  username : Option String
  email : Option String
  password_hash : Option String
  role : Option String
  deleted_at : Option Nat
deriving DecidableEq, Repr

/-- Modelled from the spec: `werkzeug.security.generate_password_hash` is an
external library function, not code of this repository.  The spec says the
password is "represented only as a one-way hash (never stored or returned in
plaintext)" and werkzeug emits a method-prefixed, salted digest string
(`method$salt$hexdigest`).  We model the digest as a hex re-encoding under the
same fixed prefix: deterministic, method-prefixed, and never equal to the
plaintext input, which is all the claims need. -/
def generate_password_hash (password : String) : String :=
  "pbkdf2:sha256:600000" ++ "$modelsalt$" ++
    String.mk (password.data.flatMap (fun c =>
      ["0123456789abcdef".data.getD (c.toNat / 16 % 16) '0',
       "0123456789abcdef".data.getD (c.toNat % 16) '0']))

/-- Modelled from the spec: `werkzeug.security.check_password_hash`, the
verifier paired with `generate_password_hash`. -/
def check_password_hash (hash password : String) : Bool :=
  hash == generate_password_hash password

/-- `User.set_password`: store the hash of the plaintext. -/
def User.set_password (u : User) (password : String) : User :=
  { u with password_hash := some (generate_password_hash password) }

/-- `User.check_password`: compare against the stored hash.  (A row without a
hash cannot authenticate.) -/
def User.check_password (u : User) (password : String) : Bool :=
  match u.password_hash with
  | some h => check_password_hash h password
  | none => false

/-- `User.validate_data`: the entity's self-validation, returning a dict of
field name to error message (empty means valid). -/
def User.validate_data (u : User) : List (String × String) :=
  let errors : List (String × String) := []
  let errors :=
    match u.username with
    | some s =>
      if s ≠ "" then
        if !validate_length (some s) 3 (some 64) then
          dictSet errors "username" "Username must be between 3 and 64 characters"
        else if !pyMatchPlusDollar isUsernameChar s then
          dictSet errors "username"
            "Username can only contain letters, numbers, underscores, periods, and hyphens"
        else errors
      else dictSet errors "username" "Username is required"
    | none => dictSet errors "username" "Username is required"
  let errors :=
    match u.email with
    | some s =>
      if s ≠ "" then
        if !emailMatches s then dictSet errors "email" "Invalid email format" else errors
      else dictSet errors "email" "Email is required"
    | none => dictSet errors "email" "Email is required"
  let errors :=
    match u.role with
    | some s =>
      if s ≠ "" then
        if s ≠ "user" ∧ s ≠ "admin" then
          dictSet errors "role" "Role must be one of: user, admin"
        else errors
      else errors
    | none => errors
  errors

/-- Render a validation-error dict the way the `before_insert`/`before_update`
listener does: `"field: message"` joined by `"; "`. -/
def joinFieldErrors (errs : List (String × String)) : String :=
  String.intercalate "; " (errs.map (fun p => p.1 ++ ": " ++ p.2))

/-- Next identity value the store would assign. -/
def nextUserId (store : List User) : Nat :=
  store.foldl (fun m r => max m r.id) 0 + 1

/-- Column default: `role` defaults to `"user"` when inserted as NULL. -/
def applyUserColumnDefaults (u : User) : User :=
  if u.role = none then { u with role := some "user" } else u

/-- Commit of an INSERT on `User`: the `before_insert` listener runs
`validate_data` and raises `ValueError` on a non-empty dict; then the store's
unique indexes on `username` and `email` are checked against **every** existing
row (the schema's `unique=True` is not scoped to active rows).  On success the
defaulted row is appended. -/
def dbInsertUser (store : List User) (u : User) : Except AppError (List User × User) :=
  if User.validate_data u = [] then
    if (match u.username with
        | some un => store.any (fun r => r.username == some un)
        | none => false) then
      .error (.dbError (.uniqueViolation "username"))
    else if (match u.email with
        | some em => store.any (fun r => r.email == some em)
        | none => false) then
      .error (.dbError (.uniqueViolation "email"))
    else
      let u := applyUserColumnDefaults u
      .ok (store ++ [u], u)
  else
    .error (.valueError ("User validation failed: " ++ joinFieldErrors (User.validate_data u)))

/-- Commit of an UPDATE on `User`: `before_update` validation, then the unique
indexes checked against every *other* row, then the row replaced in place. -/
def dbUpdateUser (store : List User) (u : User) : Except AppError (List User × User) :=
  if User.validate_data u = [] then
    if (match u.username with
        | some un => store.any (fun r => r.username == some un && r.id != u.id)
        | none => false) then
      .error (.dbError (.uniqueViolation "username"))
    else if (match u.email with
        | some em => store.any (fun r => r.email == some em && r.id != u.id)
        | none => false) then
      .error (.dbError (.uniqueViolation "email"))
    else
      .ok (store.map (fun r => if r.id == u.id then u else r), u)
  else
    .error (.valueError ("User validation failed: " ++ joinFieldErrors (User.validate_data u)))

/-- `setattr(user, key, value)` guarded by `hasattr`, as `BaseRepository.create`
iterates a data dict: only the model's settable columns are copied; any other
key — including `"password"`, which is *not* an attribute of `User` — is
silently ignored. -/
def userAttrSet (u : User) (k v : String) : User :=
  if k == "username" then { u with username := some v }
  else if k == "email" then { u with email := some v }
  else if k == "role" then { u with role := some v }
  else if k == "password_hash" then { u with password_hash := some v }
  else u

/-- `BaseRepository.create` specialized to `User`: instantiate a default
entity, copy the dict's known keys, commit (insert).  On failure the session
is rolled back (the store is unchanged) and the error re-raised unchanged. -/
def userRepoCreate (store : List User) (data : List (String × String)) :
    Except AppError (List User × User) :=
  let u0 : User :=
    { id := nextUserId store, username := none, email := none
      password_hash := none, role := none, deleted_at := none }
  let u := data.foldl (fun acc kv => userAttrSet acc kv.1 kv.2) u0
  dbInsertUser store u

/-- `BaseRepository.find_by(username=...)` via `UserRepository.get_by_username`:
equality filter plus `deleted_at IS NULL`. -/
def userFindByUsername (store : List User) (un : String) : Option User :=
  store.find? (fun r => r.username == some un && r.deleted_at.isNone)

/-- `UserRepository.get_by_email`: same, on the email column. -/
def userFindByEmail (store : List User) (em : String) : Option User :=
  store.find? (fun r => r.email == some em && r.deleted_at.isNone)

/-- `UserRepository.authenticate(username, password)`: look the user up through
the active-only `get_by_username`, then verify the password; `None` on either
failure. -/
def userRepoAuthenticate (store : List User) (username password : String) : Option User :=
  match userFindByUsername store username with
  | none => none
  | some u => if u.check_password password then some u else none

/-! ## `validate_and_sanitize_user_data` and `UserService` -/

/-- `validate_and_sanitize_user_data(data)` from `app/utils/validation.py`.
It processes the keys `username`, `password` and `role` — and **only** those:
no `email` branch exists, so the returned dict never carries an `email` key.
Errors are collected and raised together as one `ValueError`. -/
def validate_and_sanitize_user_data (data : List (String × String)) :
    Except AppError (List (String × String)) :=
  let errors : List String := []
  let sanitized : List (String × String) := []
  let st :=
    match data.lookup "username" with
    | none => (errors, sanitized)
    | some username =>
      if !validate_length (some username) 3 (some 64) ||
          !pyMatchPlusDollar isUsernameChar username then
        (errors ++
          ["Username must be between 3 and 64 characters and can only contain letters, numbers, underscores, periods, and hyphens"],
         sanitized)
      else (errors, sanitized ++ [("username", pyLower (pySanitize username))])
  let st :=
    match data.lookup "password" with
    | none => st
    | some password =>
      if !validate_length (some password) 8 none then
        (st.1 ++ ["Password must be at least 8 characters"], st.2)
      else (st.1, st.2 ++ [("password", password)])
  let st :=
    match data.lookup "role" with
    | none => st
    | some role =>
      if role ≠ "user" ∧ role ≠ "admin" then
        (st.1 ++ ["Role must be one of: user, admin"], st.2)
      else (st.1, st.2 ++ [("role", role)])
  if st.1.isEmpty then .ok st.2
  else .error (.valueError (String.intercalate ", " st.1))

/-- `UserService.create_user(username, email, password, role)`
(`app/services/user_service.py`): sanitize the inputs (not the password),
validate, pre-check username and email uniqueness among active rows, then
persist without the password and set the hash in a second write.
Note the accesses `validated_data["username"]`, `validated_data["email"]`,
`validated_data["role"]`, `validated_data["password"]` are dict
subscriptions that raise `KeyError` when the validator did not emit the key. -/
def create_user (store : List User) (username email password role : String) :
    Except AppError (List User × User) :=
  let username := pySanitize username
  let email := pySanitize email
  let role := pySanitize role
  let userData :=
    [("username", username), ("email", email), ("password", password), ("role", role)]
  match validate_and_sanitize_user_data userData with
  | .error e => .error e
  | .ok vd =>
    match pyDictGet vd "username" with
    | .error e => .error e
    | .ok un =>
      match userFindByUsername store un with
      | some _ => .error (.valueError ("User with username " ++ un ++ " already exists"))
      | none =>
        match pyDictGet vd "email" with
        | .error e => .error e
        | .ok em =>
          match userFindByEmail store em with
          | some _ => .error (.valueError ("User with email " ++ em ++ " already exists"))
          | none =>
            match pyDictGet vd "role" with
            | .error e => .error e
            | .ok rl =>
              match userRepoCreate store [("username", un), ("email", em), ("role", rl)] with
              | .error e => .error e
              | .ok (store1, user) =>
                match pyDictGet vd "password" with
                | .error e => .error e
                | .ok pw =>
                  let user := user.set_password pw
                  match dbUpdateUser store1 user with
                  | .error e => .error e
                  | .ok (store2, user2) => .ok (store2, user2)

/-! ## The `Order` model (`app/models/order.py`) -/

/-- The columns of `Orders` the claims touch.  `log` is `unique=True`
(an index over all rows); `deleted_at = none` means active. -/
structure Order where
  id : Nat
  log : Option String
  cust : Option String
  title : Option String
  logtype : Option String
  datin : Option Nat
  artout : Option Nat
  dueout : Option Nat
  datout : Option Nat
  rush : Option Bool
  deleted_at : Option Nat
deriving DecidableEq, Repr

/-- The fixed `logtype` enumeration shared by both validation layers. -/
def validLogtypes : List String := ["TR", "DP", "AA", "VG", "DG", "GM", "DTF", "PP"]

/-- `Order.validate_data` (restricted to the embedded columns): each field is
checked only when truthy, mirroring the `if self.field:` guards; `artout` and
`dueout` must not be in the past, and `dueout` must not precede `datin`. -/
def Order.validate_data (today : Nat) (o : Order) : List (String × String) :=
  let errors : List (String × String) := []
  let errors :=
    match o.log with
    | some s =>
      if s ≠ "" ∧
          ¬(pyMatchPlusDollar isAlnumChar s = true ∧ validate_length (some s) 5 (some 7) = true) then
        dictSet errors "log" "LOG# must be between 5 and 7 alphanumeric characters"
      else errors
    | none => errors
  let errors :=
    match o.cust with
    | some s =>
      if s ≠ "" ∧
          ¬(pyMatchPlusDollar isAlnumChar s = true ∧ validate_length (some s) 5 (some 5) = true) then
        dictSet errors "cust" "Customer# must be exactly 5 alphanumeric characters"
      else errors
    | none => errors
  let errors :=
    match o.title with
    | some s =>
      if s ≠ "" ∧ ¬(validate_length (some s) 1 (some 256) = true) then
        dictSet errors "title" "Title must be between 1 and 256 characters"
      else errors
    | none => errors
  let errors :=
    match o.logtype with
    | some s =>
      if s ≠ "" ∧ s ∉ validLogtypes then
        dictSet errors "logtype" "Log Type must be one of: TR, DP, AA, VG, DG, GM, DTF, PP"
      else errors
    | none => errors
  let errors :=
    if o.artout.isSome ∧ ¬(validate_date_not_in_past today o.artout = true) then
      dictSet errors "artout" "Art Out cannot be in the past"
    else errors
  let errors :=
    if o.dueout.isSome ∧ ¬(validate_date_not_in_past today o.dueout = true) then
      dictSet errors "dueout" "Due Out cannot be in the past"
    else errors
  let errors :=
    if o.datin.isSome ∧ o.dueout.isSome ∧ ¬(validate_date_range o.datin o.dueout = true) then
      dictSet errors "dueout" "Due Out date must be after Date In"
    else errors
  errors

/-- Next identity value the order store would assign. -/
def nextOrderId (store : List Order) : Nat :=
  store.foldl (fun m r => max m r.id) 0 + 1

/-- Commit of an INSERT on `Orders`: `before_insert` validation, then the
unique index on `log` checked against every existing row (deleted ones
included). -/
def dbInsertOrder (today : Nat) (store : List Order) (o : Order) :
    Except AppError (List Order × Order) :=
  if Order.validate_data today o = [] then
    if (match o.log with
        | some l => store.any (fun r => r.log == some l)
        | none => false) then
      .error (.dbError (.uniqueViolation "log"))
    else .ok (store ++ [o], o)
  else
    .error (.valueError ("Order validation failed: " ++
      joinFieldErrors (Order.validate_data today o)))

/-- An order-data dict: `some` marks a key that is present (the embedded
columns all exist on `Order`, so `hasattr` succeeds for each of them; a key
present with value `None` is conflated with an absent key, which the claims
never distinguish). -/
structure OrderData where
  log : Option String := none
  cust : Option String := none
  title : Option String := none
  logtype : Option String := none
  datin : Option Nat := none
  artout : Option Nat := none
  dueout : Option Nat := none
  datout : Option Nat := none
  rush : Option Bool := none
deriving DecidableEq, Repr

/-- `BaseRepository.create`'s field copy specialized to `Order`: a default
entity with every provided key set. -/
def orderFromData (store : List Order) (d : OrderData) : Order :=
  { id := nextOrderId store
    log := d.log, cust := d.cust, title := d.title, logtype := d.logtype
    datin := d.datin, artout := d.artout, dueout := d.dueout, datout := d.datout
    rush := d.rush, deleted_at := none }

/-- `BaseRepository.create` specialized to `Order`: build the entity, commit;
on failure roll back (store unchanged) and re-raise unchanged. -/
def orderRepoCreate (today : Nat) (store : List Order) (d : OrderData) :
    Except AppError (List Order × Order) :=
  dbInsertOrder today store (orderFromData store d)

/-- `validate_and_sanitize_order_data` (restricted to the embedded columns):
collects error strings, sanitizes accepted values, and raises one `ValueError`
joining all errors.  The `log`/`cust` checks demand **exactly 5** alphanumeric
characters; `title` is capped at 100; dates reaching this function are date
values (the string-parsing branch is identity on them); `artout`/`dueout` must
not be in the past; `datin`/`datout` pass through. -/
def validate_and_sanitize_order_data (today : Nat) (d : OrderData) :
    Except AppError OrderData :=
  let errors : List String := []
  let sd : OrderData := {}
  let st :=
    match d.log with
    | none => (errors, sd)
    | some l =>
      if !(validate_alphanumeric (some l) false) || !(validate_length (some l) 5 (some 5)) then
        (errors ++ ["LOG# must be exactly 5 alphanumeric characters"], sd)
      else (errors, { sd with log := some (pySanitize l) })
  let st :=
    match d.cust with
    | none => st
    | some c =>
      if !(validate_alphanumeric (some c) false) || !(validate_length (some c) 5 (some 5)) then
        (st.1 ++ ["Customer# must be exactly 5 alphanumeric characters"], st.2)
      else (st.1, { st.2 with cust := some (pySanitize c) })
  let st :=
    match d.title with
    | none => st
    | some t =>
      if !(validate_length (some t) 1 (some 100)) then
        (st.1 ++ ["Title must be between 1 and 100 characters"], st.2)
      else (st.1, { st.2 with title := some (pySanitize t) })
  let st :=
    match d.logtype with
    | none => st
    | some lt =>
      if lt ∉ validLogtypes then
        (st.1 ++ ["Log Type must be one of: TR, DP, AA, VG, DG, GM, DTF, PP"], st.2)
      else (st.1, { st.2 with logtype := some lt })
  let st :=
    match d.datin with
    | none => st
    | some v => (st.1, { st.2 with datin := some v })
  let st :=
    match d.artout with
    | none => st
    | some v =>
      if !(validate_date_not_in_past today (some v)) then
        (st.1 ++ ["Artout cannot be in the past"], st.2)
      else (st.1, { st.2 with artout := some v })
  let st :=
    match d.dueout with
    | none => st
    | some v =>
      if !(validate_date_not_in_past today (some v)) then
        (st.1 ++ ["Dueout cannot be in the past"], st.2)
      else (st.1, { st.2 with dueout := some v })
  let st :=
    match d.datout with
    | none => st
    | some v => (st.1, { st.2 with datout := some v })
  let st :=
    match d.rush with
    | none => st
    | some b => (st.1, { st.2 with rush := some b })
  if st.1.isEmpty then .ok st.2
  else .error (.valueError (String.intercalate ", " st.1))

/-- `BaseService.create` with `validate_and_sanitize_order_data` injected
(`OrderService.create_order`): validate, then delegate to the repository.  The
`except ValueError`/`except Exception` blocks only log and re-raise, so every
error — the storage layer's `IntegrityError` included — reaches the service's
caller unchanged. -/
def orderServiceCreate (today : Nat) (store : List Order) (d : OrderData) :
    Except AppError (List Order × Order) :=
  match validate_and_sanitize_order_data today d with
  | .error e => .error e
  | .ok vd => orderRepoCreate today store vd

/-- `BaseRepository.exists(log=l)` as used by `OrderService.check_order_exists`:
a matching **active** row exists. -/
def orderExists (store : List Order) (l : String) : Bool :=
  store.any (fun o => o.log == some l && o.deleted_at.isNone)

/-! ## `OrderRepository.get_dueouts` and `apply_sort` -/

/-- Sort key used by `ORDER BY dueout ASC` (every row reaching the sort has a
non-null `dueout`). -/
def dueLe (x y : Order) : Prop :=
  x.dueout.getD 0 ≤ y.dueout.getD 0

instance : DecidableRel dueLe := fun _ _ => Nat.decLe _ _

instance : IsTotal Order dueLe := ⟨fun _ _ => Nat.le_total _ _⟩

instance : IsTrans Order dueLe := ⟨fun _ _ _ h h2 => Nat.le_trans h h2⟩

/-- `OrderRepository.get_dueouts(start, end)`: active rows with a log-type in
TR/DP/AA/DTF, not yet shipped (`datout IS NULL`), a non-null `dueout`,
optionally bounded by the inclusive `[start, end]` range, ordered by `dueout`
ascending.  (The string-to-date parsing prelude is the identity here since the
bounds arrive as date values.) -/
def get_dueouts (store : List Order) (start «end» : Option Nat) : List Order :=
  let q := store.filter (fun o => o.deleted_at.isNone)
  let q := q.filter (fun o =>
    o.logtype == some "TR" || o.logtype == some "DP" ||
    o.logtype == some "AA" || o.logtype == some "DTF")
  let q := q.filter (fun o => o.datout.isNone)
  let q := q.filter (fun o => o.dueout.isSome)
  let q :=
    match start with
    | some a => q.filter (fun (o : Order) => a ≤ o.dueout.getD 0)
    | none => q
  let q :=
    match «end» with
    | some b => q.filter (fun (o : Order) => o.dueout.getD 0 ≤ b)
    | none => q
  q.insertionSort dueLe

/-- The attribute names `getattr(Order, name)` can resolve, restricted to the
embedded columns. -/
def orderColumnNames : List String :=
  ["id", "log", "cust", "title", "logtype", "datin", "artout", "dueout", "datout",
   "rush", "deleted_at"]

/-- Python `s.split(",")` on the character list: structurally recursive,
`""` splits to `[""]`. -/
def pySplitOnComma (l : List Char) : List (List Char) :=
  match l with
  | [] => [[]]
  | c :: rest =>
    let r := pySplitOnComma rest
    if c = ',' then [] :: r
    else
      match r with
      | h :: t => (c :: h) :: t
      | [] => [[c]]

/-- One sort criterion: a column and a direction. -/
structure SortKey where
  field : String
  desc : Bool
deriving DecidableEq, Repr

/-- Python exceptions `apply_sort` can raise while parsing. -/
inductive PyExn where
  | attributeError (name : String)
  | indexError
deriving DecidableEq, Repr

/-- One token of `OrderRepository.apply_sort`'s comma-separated list, exactly as
written in the source: `getattr(self.model, s[1:]).desc() if s[0] == "-" else
getattr(self.model, s[1:])` — note that **both** branches take `s[1:]`, so a
token without a leading dash also loses its first character; an empty token
makes `s[0]` raise `IndexError`, and an unknown attribute name raises
`AttributeError`. -/
def parseSortToken (tok : String) : Except PyExn SortKey :=
  match tok.data with
  | [] => .error .indexError
  | c :: rest =>
    let name := String.mk rest
    if c = '-' then
      if name ∈ orderColumnNames then .ok ⟨name, true⟩ else .error (.attributeError name)
    else
      if name ∈ orderColumnNames then .ok ⟨name, false⟩ else .error (.attributeError name)

/-- `OrderRepository.apply_sort(query, sort_argument)`, reduced to the ORDER BY
key list it builds: a falsy argument leaves the query unchanged, otherwise the
argument is split on commas and each token parsed by `parseSortToken`. -/
def applySortKeys (sortArgument : Option String) : Except PyExn (List SortKey) :=
  match sortArgument with
  | none => .ok []
  | some s =>
    if s = "" then .ok []
    else ((pySplitOnComma s.data).map String.mk).mapM parseSortToken

/-! ## The generic soft-delete repository (`app/repositories/base_repository.py`) -/

/-- One stored row of an arbitrary entity type: primary key, soft-delete
timestamp, and the remaining payload. -/
structure Row (α : Type) where
  id : Nat
  deleted_at : Option Nat
  data : α
deriving DecidableEq, Repr

/-- `BaseRepository.get_by_id`: `query.get(id)` then `entity and
entity.deleted_at is None`. -/
def get_by_id (s : List (Row α)) (i : Nat) : Option (Row α) :=
  match s.find? (fun r => r.id == i) with
  | some r => if r.deleted_at.isNone then some r else none
  | none => none

/-- `BaseRepository.get_all`: every non-deleted row. -/
def get_all (s : List (Row α)) : List (Row α) :=
  s.filter (fun r => r.deleted_at.isNone)

/-- `BaseRepository.get_deleted`: every row with a non-null `deleted_at`. -/
def get_deleted (s : List (Row α)) : List (Row α) :=
  s.filter (fun r => r.deleted_at.isSome)

/-- `BaseRepository.get_all_including_deleted`. -/
def get_all_including_deleted (s : List (Row α)) : List (Row α) := s

/-- Mutate the identity-mapped entity with primary key `i` and commit: every
other row is untouched. -/
def mapById (i : Nat) (g : Row α → Row α) (s : List (Row α)) : List (Row α) :=
  s.map (fun r => if r.id == i then g r else r)

/-- `BaseRepository.delete(entity)`: soft delete — set `deleted_at` to the
current timestamp and commit. -/
def repo_delete (s : List (Row α)) (entity : Row α) (now : Nat) : List (Row α) :=
  mapById entity.id (fun r => { r with deleted_at := some now }) s

/-- `BaseRepository.restore(entity)`: clear `deleted_at` and commit. -/
def repo_restore (s : List (Row α)) (entity : Row α) : List (Row α) :=
  mapById entity.id (fun r => { r with deleted_at := none }) s

/-! ## The reflection-driven field copy of `create`/`update` -/

/-- `setattr(entity, k, v)` on an entity rendered as its attribute dictionary:
every binding of `k` is overwritten (attribute names are unique on a real
object). -/
def setAttr (o : List (String × α)) (k : String) (v : α) : List (String × α) :=
  o.map (fun p => if p.1 == k then (k, v) else p)

/-- The loop shared by `BaseRepository.create` and `BaseRepository.update`:
`for key, value in entity_data.items(): if hasattr(entity, key):
setattr(entity, key, value)`. -/
def apply_entity_data (o : List (String × α)) (data : List (String × α)) :
    List (String × α) :=
  data.foldl (fun acc kv => if (acc.lookup kv.1).isSome then setAttr acc kv.1 kv.2 else acc) o

/-- `BaseRepository.create`'s attribute phase: the field copy applied to a
fresh default instance of the model. -/
def repo_create_obj (modelDefaults : List (String × α)) (data : List (String × α)) :
    List (String × α) :=
  apply_entity_data modelDefaults data

/-- `BaseRepository.update`'s attribute phase: the same field copy applied to
the existing entity. -/
def repo_update_obj (entity : List (String × α)) (data : List (String × α)) :
    List (String × α) :=
  apply_entity_data entity data

/-! ## Concrete fixtures used by witnesses and counterexamples -/

/-- A soft-deleted user holding the username `alice`. -/
def demoDeletedAlice : User :=
  { id := 1, username := some "alice", email := some "alice@x.com"
    password_hash := some "h", role := some "user", deleted_at := some 5 }

/-- A valid fresh user row reusing `alice`'s username with an unused email. -/
def demoNewAlice : User :=
  { id := 2, username := some "alice", email := some "fresh@x.com"
    password_hash := none, role := some "user", deleted_at := none }

/-- A soft-deleted order holding the log code `ABCDE`. -/
def demoDeletedOrder : Order :=
  { id := 1, log := some "ABCDE", cust := none, title := none, logtype := some "TR"
    datin := none, artout := none, dueout := none, datout := none, rush := none
    deleted_at := some 7 }

/-- Create data reusing the log code `ABCDE`. -/
def demoOrderData : OrderData :=
  { log := some "ABCDE", title := some "T", logtype := some "TR" }

/-- An eligible transfer order due late. -/
def demoDueLate : Order :=
  { id := 1, log := some "AAAAA", cust := none, title := none, logtype := some "TR"
    datin := none, artout := none, dueout := some 8, datout := none, rush := none
    deleted_at := none }

/-- An eligible direct-print order due early. -/
def demoDueEarly : Order :=
  { id := 2, log := some "BBBBB", cust := none, title := none, logtype := some "DP"
    datin := none, artout := none, dueout := some 4, datout := none, rush := none
    deleted_at := none }

/-- A vinyl order: its log-type is outside the due-out report. -/
def demoDueWrongType : Order :=
  { id := 3, log := some "CCCCC", cust := none, title := none, logtype := some "VG"
    datin := none, artout := none, dueout := some 5, datout := none, rush := none
    deleted_at := none }

/-- An already-shipped order: excluded by the `datout IS NULL` filter. -/
def demoDueShipped : Order :=
  { id := 4, log := some "DDDDD", cust := none, title := none, logtype := some "AA"
    datin := none, artout := none, dueout := some 6, datout := some 9, rush := none
    deleted_at := none }

/-- The sanitized form of `demoOrderData` as the order validator returns it. -/
def demoValidatedData : OrderData :=
  { log := some "ABCDE", title := some "T", logtype := some "TR" }

/-- Orders exercising every `get_dueouts` filter. -/
def demoDueStore : List Order :=
  [demoDueLate, demoDueEarly, demoDueWrongType, demoDueShipped]

/-- A two-row store of generic entities for the soft-delete round trip. -/
def demoRowA : Row String := { id := 1, deleted_at := none, data := "payload-a" }

/-- The second generic row. -/
def demoRowB : Row String := { id := 2, deleted_at := none, data := "payload-b" }

/-- The generic demo store. -/
def demoRowStore : List (Row String) := [demoRowA, demoRowB]

/-- A demo active user for the authentication witness. -/
def demoActiveBob : User :=
  { id := 3, username := some "bob", email := some "bob@x.com"
    password_hash := some (generate_password_hash "password123"), role := some "user"
    deleted_at := none }

/-- Default attribute dictionary of a tiny demo entity for the field-copy
witness. -/
def demoObjDefaults : List (String × String) :=
  [("title", "old-title"), ("cust", "old-cust"), ("log", "old-log")]

/-- Update data for the field-copy witness: one known key changed, one unknown
key to be ignored. -/
def demoObjData : List (String × String) :=
  [("title", "new-title"), ("unknown_key", "ignored")]

/-- An order with only the log code populated — the granularity at which the
two validation layers are compared on the `log` field. -/
def logOnlyOrder (l : String) : Order :=
  { id := 0, log := some l, cust := none, title := none, logtype := none
    datin := none, artout := none, dueout := none, datout := none, rush := none
    deleted_at := none }

/-- An order with a six-character alphanumeric log code and nothing else:
entity-level validation accepts it, service-level validation rejects it. -/
def sixCharLogOrder : Order := logOnlyOrder "ABC123"

/-! # Theorems

Helper lemmas first, then one theorem per claim (with its witness or
counterexample where required). -/

/-- Unfolding lemma for `pyMatchPlusDollar`. -/
theorem pyMatchPlusDollar_eq (cls : Char → Bool) (s : String) :
    pyMatchPlusDollar cls s =
      (!(stripTrailingNewline s.data).isEmpty && (stripTrailingNewline s.data).all cls) := rfl

/-- `stripTrailingNewline` removes exactly one final newline. -/
theorem stripTrailingNewline_concat_newline (core : List Char) :
    stripTrailingNewline (core ++ ['\n']) = core := by
  unfold stripTrailingNewline
  rw [if_pos (List.getLast?_concat core), List.dropLast_concat]

/-- `stripTrailingNewline` is the identity when the list does not end in a
newline. -/
theorem stripTrailingNewline_of_ne (l : List Char) (h : ¬(l.getLast? = some '\n')) :
    stripTrailingNewline l = l := by
  unfold stripTrailingNewline
  rw [if_neg h]

/-- C9, counterexample: the string `"A\n"` is not made of alphanumeric
characters only, yet `validate_alphanumeric` returns `True` for it, because
Python's `$` anchor also matches just before a final newline. -/
theorem validate_alphanumeric_newline_counterexample :
    validate_alphanumeric (some "A\n") false = true ∧
    ("A\n").data.all isAlnumChar = false := by
  constructor <;> decide

/-- C9 (amended): `validate_alphanumeric(s, allow_empty)` is true iff `s`
consists of one or more `[A-Za-z0-9]` characters **optionally followed by one
trailing newline** (Python `re` `$` semantics); `None`/empty honors
`allow_empty`. -/
theorem validate_alphanumeric_spec (s : String) (ae : Bool) :
    validate_alphanumeric none ae = ae ∧
    (validate_alphanumeric (some s) ae = true ↔
      (s.data = [] ∧ ae = true) ∨
      (s.data ≠ [] ∧ s.data.all isAlnumChar = true) ∨
      (∃ core, s.data = core ++ ['\n'] ∧ core ≠ [] ∧ core.all isAlnumChar = true)) := by
  refine ⟨rfl, ?_⟩
  by_cases hs : s = ""
  · subst hs
    simp [validate_alphanumeric]
  · have hd : s.data ≠ [] := by
      intro h
      apply hs
      cases s with
      | mk l => simp only at h; simp [h]
    have hv : validate_alphanumeric (some s) ae = pyMatchPlusDollar isAlnumChar s := by
      simp [validate_alphanumeric, hs]
    rw [hv, pyMatchPlusDollar_eq]
    cases hlast : s.data.getLast? with
    | none => exact absurd (List.getLast?_eq_none_iff.mp hlast) hd
    | some c =>
      by_cases hc : c = '\n'
      · subst hc
        obtain ⟨core, hcore⟩ := List.getLast?_eq_some_iff.mp hlast
        rw [hcore, stripTrailingNewline_concat_newline]
        constructor
        · intro hval
          simp only [Bool.and_eq_true, Bool.not_eq_true', List.isEmpty_eq_false] at hval
          exact Or.inr (Or.inr ⟨core, rfl, hval.1, hval.2⟩)
        · rintro (⟨h1, _⟩ | ⟨_, h2⟩ | ⟨c2, heq, hne, hall⟩)
          · exact absurd h1 (by simp)
          · rw [List.all_append] at h2
            simp only [Bool.and_eq_true, List.all_cons, List.all_nil, Bool.and_true] at h2
            exact absurd h2.2 (by decide)
          · have hcc : c2 = core := (List.append_cancel_right heq).symm
            subst hcc
            simp only [Bool.and_eq_true, Bool.not_eq_true', List.isEmpty_eq_false]
            exact ⟨hne, hall⟩
      · have hne2 : ¬(s.data.getLast? = some '\n') := by
          rw [hlast]
          exact fun h => hc (Option.some.inj h)
        rw [stripTrailingNewline_of_ne s.data hne2]
        constructor
        · intro hval
          simp only [Bool.and_eq_true, Bool.not_eq_true', List.isEmpty_eq_false] at hval
          exact Or.inr (Or.inl ⟨hval.1, hval.2⟩)
        · rintro (⟨h1, _⟩ | ⟨_, h2⟩ | ⟨c2, heq, _, _⟩)
          · exact absurd h1 hd
          · simp only [Bool.and_eq_true, Bool.not_eq_true', List.isEmpty_eq_false]
            exact ⟨hd, h2⟩
          · rw [heq, List.getLast?_concat] at hlast
            exact absurd (Option.some.inj hlast).symm hc

/-- C5, counterexample: the claim's "accepts iff" fails on the log code
`ABC123` — `Order.validate_data` reports no error (5—7 alphanumeric characters
allowed) while `validate_and_sanitize_order_data` rejects it (exactly 5
required). -/
theorem order_validator_equivalence_counterexample :
    validate_and_sanitize_order_data 0 { log := some "ABC123" } =
      .error (.valueError "LOG# must be exactly 5 alphanumeric characters") ∧
    Order.validate_data 0 sixCharLogOrder = [] :=
  ⟨rfl, rfl⟩

/-- C5 (amended): on the `log` field the two layers are not equivalent but
refine one way — every log code the service validator accepts (exactly 5
alphanumeric characters) also passes the entity validator (5—7 allowed); the
counterexample shows the converse fails. -/
theorem order_log_service_accept_implies_model_accept (today : Nat) (l : String)
    (hal : validate_alphanumeric (some l) false = true)
    (hlen : validate_length (some l) 5 (some 5) = true) :
    Order.validate_data today (logOnlyOrder l) = [] := by
  have hs : l ≠ "" := by
    intro h
    rw [h] at hal
    simp [validate_alphanumeric] at hal
  have hmatch : pyMatchPlusDollar isAlnumChar l = true := by
    simpa [validate_alphanumeric, hs] using hal
  have hlen57 : validate_length (some l) 5 (some 7) = true := by
    simp only [validate_length, Bool.and_eq_true, decide_eq_true_eq] at hlen ⊢
    omega
  unfold Order.validate_data logOnlyOrder
  simp [hmatch, hlen57]

/-- C5, witness for the amended theorem at the log code `ABCDE`. -/
theorem order_log_refinement_witness :
    validate_alphanumeric (some "ABCDE") false = true ∧
    validate_length (some "ABCDE") 5 (some 5) = true ∧
    Order.validate_data 3 (logOnlyOrder "ABCDE") = [] :=
  ⟨by decide, by decide,
    order_log_service_accept_implies_model_accept 3 "ABCDE" (by decide) (by decide)⟩

/-- C7: `apply_sort` takes `s[1:]` as the attribute name in **both** branches,
so an ascending token such as `log` resolves `getattr(Order, "og")` and raises
`AttributeError` (the repository's own legacy-API test expects `?sort=log` to
succeed); only dash-prefixed tokens such as `-datin` sort by the named field. -/
theorem apply_sort_ascending_token_truncated :
    applySortKeys (some "log") = .error (.attributeError "og") ∧
    applySortKeys (some "-datin") = .ok [{ field := "datin", desc := true }] ∧
    applySortKeys (some "datin,log") = .error (.attributeError "atin") := by
  refine ⟨?_, ?_, ?_⟩ <;> decide

/-- C8: evaluating `UserService.create_user` at perfectly valid input on an
empty store: `validate_and_sanitize_user_data` has no `email` branch, so
`validated_data["email"]` raises `KeyError("email")` before anything is
persisted — the documented two-phase write is unreachable. -/
theorem create_user_raises_keyerror_email :
    create_user [] "newuser" "new@example.com" "newpass123" "user" =
      .error (.keyError "email") := rfl

/-- C10: soft-deleted users can never authenticate — `authenticate` returns a
user only if that user's `deleted_at` is null, and when every row holding the
username is soft-deleted it returns `None` no matter the password (the lookup
runs through the active-only `find_by`). -/
theorem authenticate_only_active (store : List User) (username password : String) :
    (∀ u, userRepoAuthenticate store username password = some u → u.deleted_at = none) ∧
    ((∀ r ∈ store, r.username = some username → r.deleted_at ≠ none) →
      userRepoAuthenticate store username password = none) := by
  constructor
  · intro u hu
    unfold userRepoAuthenticate userFindByUsername at hu
    cases hf : store.find? (fun r => r.username == some username && r.deleted_at.isNone) with
    | none => rw [hf] at hu; exact absurd hu (by simp)
    | some u0 =>
      rw [hf] at hu
      have hu2 : (if u0.check_password password = true then some u0 else none) = some u := hu
      have hp := List.find?_some hf
      simp only [Bool.and_eq_true, beq_iff_eq, Option.isNone_iff_eq_none] at hp
      by_cases hchk : u0.check_password password = true
      · rw [if_pos hchk] at hu2
        exact (Option.some.inj hu2) ▸ hp.2
      · rw [if_neg hchk] at hu2
        exact absurd hu2 (by simp)
  · intro hall
    unfold userRepoAuthenticate userFindByUsername
    have hnone : store.find? (fun r => r.username == some username && r.deleted_at.isNone) = none := by
      rw [List.find?_eq_none]
      intro r hr
      simp only [Bool.and_eq_true, beq_iff_eq, Option.isNone_iff_eq_none, not_and]
      intro hun
      exact hall r hr hun
    rw [hnone]

/-- C10, witness: `bob` (active, correct password) authenticates and is
active; `alice` (soft-deleted) does not authenticate even with her correct
password. -/
theorem authenticate_only_active_witness :
    demoActiveBob.deleted_at = none ∧
    userRepoAuthenticate [demoDeletedAlice] "alice" "password123" = none :=
  ⟨(authenticate_only_active [demoDeletedAlice, demoActiveBob] "bob" "password123").1
      demoActiveBob (by decide),
   (authenticate_only_active [demoDeletedAlice] "alice" "password123").2 (by decide)⟩

/-- `find?` by primary key on a store whose matching row was rewritten:
with unique ids, the lookup lands exactly on the rewritten row. -/
theorem find?_id_mapById {α : Type} (i : Nat) (t : Option Nat) (s : List (Row α)) (e : Row α)
    (he : e ∈ s) (hei : e.id = i) (hnd : (s.map Row.id).Nodup) :
    (mapById i (fun r => { r with deleted_at := t }) s).find? (fun r => r.id == i) =
      some { e with deleted_at := t } := by
  induction s with
  | nil => cases he
  | cons h tl ih =>
    rw [List.map_cons, List.nodup_cons] at hnd
    obtain ⟨hnmem, hnd2⟩ := hnd
    unfold mapById
    rw [List.map_cons]
    rcases List.mem_cons.mp he with rfl | hmem
    · rw [if_pos (by simp [hei])]
      exact List.find?_cons_of_pos _ (by simp [hei])
    · have hne : ¬(h.id = i) := by
        intro hh
        exact hnmem (hh ▸ (hei ▸ List.mem_map_of_mem Row.id hmem))
      have ihr := ih hmem hnd2
      unfold mapById at ihr
      rw [if_neg (by simp [hne])]
      rw [List.find?_cons_of_neg _ (by simp [hne])]
      exact ihr

/-- Rewriting `deleted_at` twice on the same primary key keeps only the second
write. -/
theorem mapById_setDeleted_comp {α : Type} (i : Nat) (t1 t2 : Option Nat) (s : List (Row α)) :
    mapById i (fun r => { r with deleted_at := t2 })
        (mapById i (fun r => { r with deleted_at := t1 }) s) =
      mapById i (fun r => { r with deleted_at := t2 }) s := by
  unfold mapById
  rw [List.map_map]
  refine List.map_congr_left (fun r _ => ?_)
  by_cases hr : r.id = i <;> simp [hr]

/-- C1: the soft-delete round trip — `delete` then `restore` then `get_by_id`
returns the entity again; in between, `get_by_id` returns `None`, `get_all`
excludes the entity, and `get_deleted` includes it (with its timestamp set). -/
theorem soft_delete_restore_round_trip {α : Type} (s : List (Row α)) (e : Row α) (now : Nat)
    (he : e ∈ s) (hnd : (s.map Row.id).Nodup) (hact : e.deleted_at = none) :
    get_by_id (repo_restore (repo_delete s e now) e) e.id = some e ∧
    get_by_id (repo_delete s e now) e.id = none ∧
    (∀ r ∈ get_all (repo_delete s e now), ¬(r.id = e.id)) ∧
    { e with deleted_at := some now } ∈ get_deleted (repo_delete s e now) := by
  refine ⟨?_, ?_, ?_, ?_⟩
  · have hcomp : repo_restore (repo_delete s e now) e =
        mapById e.id (fun r => { r with deleted_at := none }) s := by
      unfold repo_restore repo_delete
      exact mapById_setDeleted_comp e.id (some now) none s
    rw [hcomp]
    unfold get_by_id
    rw [find?_id_mapById e.id none s e he rfl hnd]
    have hee : ({ e with deleted_at := none } : Row α) = e := by
      obtain ⟨eid, edel, edata⟩ := e
      simp only at hact
      rw [hact]
    simp [hee]
  · unfold repo_delete get_by_id
    rw [find?_id_mapById e.id (some now) s e he rfl hnd]
    simp
  · intro r hr hre
    unfold get_all repo_delete mapById at hr
    rw [List.mem_filter] at hr
    obtain ⟨hmem, hnone⟩ := hr
    rw [List.mem_map] at hmem
    obtain ⟨x, hx, hfx⟩ := hmem
    by_cases hxid : x.id = e.id
    · rw [if_pos (by simp [hxid])] at hfx
      rw [← hfx] at hnone
      simp at hnone
    · rw [if_neg (by simp [hxid])] at hfx
      rw [← hfx] at hre
      exact hxid hre
  · unfold get_deleted repo_delete mapById
    rw [List.mem_filter]
    constructor
    · rw [List.mem_map]
      exact ⟨e, he, by simp⟩
    · simp

/-- C1, witness: the round trip evaluated on the two-row demo store. -/
theorem soft_delete_round_trip_witness :
    demoRowA ∈ demoRowStore ∧ (demoRowStore.map Row.id).Nodup ∧
    demoRowA.deleted_at = none ∧
    (get_by_id (repo_restore (repo_delete demoRowStore demoRowA 7) demoRowA) demoRowA.id =
        some demoRowA ∧
      get_by_id (repo_delete demoRowStore demoRowA 7) demoRowA.id = none ∧
      (∀ r ∈ get_all (repo_delete demoRowStore demoRowA 7), ¬(r.id = demoRowA.id)) ∧
      { demoRowA with deleted_at := some 7 } ∈ get_deleted (repo_delete demoRowStore demoRowA 7)) :=
  ⟨by decide, by decide, rfl,
    soft_delete_restore_round_trip demoRowStore demoRowA 7 (by decide) (by decide) rfl⟩

/-- `setAttr` overwrites an existing binding. -/
theorem lookup_setAttr_same {α : Type} (o : List (String × α)) (k : String) (v : α)
    (h : (o.lookup k).isSome = true) : (setAttr o k v).lookup k = some v := by
  induction o with
  | nil => simp at h
  | cons p tl ih =>
    obtain ⟨a, b⟩ := p
    by_cases ha : a = k
    · subst ha
      simp [setAttr, List.lookup_cons]
    · rw [List.lookup_cons] at h
      rw [show (k == a) = false by simp [Ne.symm ha]] at h
      simpa [setAttr, List.lookup_cons, ha, Ne.symm ha,
        show (k == a) = false by simp [Ne.symm ha]] using ih h

/-- `setAttr` adds no binding: an absent key stays absent. -/
theorem lookup_setAttr_none {α : Type} (o : List (String × α)) (k : String) (v : α)
    (h : o.lookup k = none) : (setAttr o k v).lookup k = none := by
  induction o with
  | nil => rfl
  | cons p tl ih =>
    obtain ⟨a, b⟩ := p
    by_cases ha : a = k
    · subst ha
      rw [List.lookup_cons] at h
      simp at h
    · rw [List.lookup_cons] at h
      rw [show (k == a) = false by simp [Ne.symm ha]] at h
      simpa [setAttr, List.lookup_cons, ha, Ne.symm ha,
        show (k == a) = false by simp [Ne.symm ha]] using ih h

/-- `setAttr` on one key leaves every other key's binding unchanged. -/
theorem lookup_setAttr_ne {α : Type} (o : List (String × α)) (k k2 : String) (v : α)
    (h : ¬(k2 = k)) : (setAttr o k v).lookup k2 = o.lookup k2 := by
  induction o with
  | nil => rfl
  | cons p tl ih =>
    obtain ⟨a, b⟩ := p
    by_cases ha : a = k
    · subst ha
      simpa [setAttr, List.lookup_cons, h, Ne.symm h,
        show (k2 == a) = false by simp [h]] using ih
    · by_cases h2a : k2 = a
      · subst h2a
        simp [setAttr, List.lookup_cons, h, ha, show (k2 == k2) = true by simp]
      · simpa [setAttr, List.lookup_cons, ha, h2a, Ne.symm h2a,
          show (k2 == a) = false by simp [h2a]] using ih

/-- `setAttr` preserves the attribute-name list. -/
theorem keys_setAttr {α : Type} (o : List (String × α)) (k : String) (v : α) :
    (setAttr o k v).map Prod.fst = o.map Prod.fst := by
  unfold setAttr
  rw [List.map_map]
  refine List.map_congr_left (fun p _ => ?_)
  by_cases hp : p.1 = k <;> simp [hp]

/-- The frame property of the shared field-copy loop: attribute names are
preserved; a data key that exists on the entity is set to its value; a data
key the entity lacks stays absent; every attribute not named in the data keeps
its previous binding. -/
theorem apply_entity_data_spec {α : Type} (o data : List (String × α))
    (hnd : (data.map Prod.fst).Nodup) :
    ((apply_entity_data o data).map Prod.fst = o.map Prod.fst) ∧
    (∀ k v, (k, v) ∈ data →
      ((o.lookup k).isSome = true → (apply_entity_data o data).lookup k = some v) ∧
      (o.lookup k = none → (apply_entity_data o data).lookup k = none)) ∧
    (∀ k, k ∉ data.map Prod.fst → (apply_entity_data o data).lookup k = o.lookup k) := by
  induction data generalizing o with
  | nil => simp [apply_entity_data]
  | cons kv rest ih =>
    obtain ⟨k0, v0⟩ := kv
    rw [List.map_cons, List.nodup_cons] at hnd
    obtain ⟨hk0, hnd2⟩ := hnd
    have hstep : apply_entity_data o ((k0, v0) :: rest) =
        apply_entity_data (if (o.lookup k0).isSome then setAttr o k0 v0 else o) rest := rfl
    obtain ⟨ihkeys, ihmem, ihother⟩ :=
      ih (if (o.lookup k0).isSome then setAttr o k0 v0 else o) hnd2
    have hkeysacc : (if (o.lookup k0).isSome then setAttr o k0 v0 else o).map Prod.fst =
        o.map Prod.fst := by
      by_cases h0 : (o.lookup k0).isSome <;> simp [h0, keys_setAttr]
    refine ⟨?_, ?_, ?_⟩
    · rw [hstep, ihkeys, hkeysacc]
    · rintro k v hkv
      rcases List.mem_cons.mp hkv with heq | hmem2
      · obtain ⟨hk, hv⟩ := Prod.mk.injEq .. ▸ heq
        subst hk
        subst hv
        constructor
        · intro hsome
          rw [hstep, ihother k hk0]
          simp only [hsome, if_true]
          exact lookup_setAttr_same o k v hsome
        · intro hnone
          rw [hstep, ihother k hk0]
          simp [hnone]
      · have hkmem : k ∈ rest.map Prod.fst := List.mem_map_of_mem Prod.fst hmem2
        have hkk0 : ¬(k = k0) := fun h => hk0 (h ▸ hkmem)
        have hlk : (if (o.lookup k0).isSome then setAttr o k0 v0 else o).lookup k = o.lookup k := by
          by_cases h0 : (o.lookup k0).isSome <;> simp [h0, lookup_setAttr_ne o k0 k v0 hkk0]
        constructor
        · intro hsome
          rw [hstep]
          exact (ihmem k v hmem2).1 (by rw [hlk]; exact hsome)
        · intro hnone
          rw [hstep]
          exact (ihmem k v hmem2).2 (by rw [hlk]; exact hnone)
    · intro k hk
      rw [List.map_cons, List.mem_cons] at hk
      push_neg at hk
      obtain ⟨hk1, hk2⟩ := hk
      rw [hstep, ihother k hk2]
      by_cases h0 : (o.lookup k0).isSome <;>
        simp [h0, lookup_setAttr_ne o k0 k v0 hk1]

/-- C6: the partial-field-copy frame property for `create(data)` and
`update(entity, data)` — both set exactly the data keys that exist on the
entity, silently ignore unknown keys (the attribute set is unchanged and the
key stays absent), and leave every attribute not named in the data at its
previous value. -/
theorem create_update_field_copy_frame {α : Type}
    (modelDefaults entity data : List (String × α))
    (hnd : (data.map Prod.fst).Nodup) :
    (((repo_create_obj modelDefaults data).map Prod.fst = modelDefaults.map Prod.fst) ∧
      (∀ k v, (k, v) ∈ data →
        ((modelDefaults.lookup k).isSome = true →
          (repo_create_obj modelDefaults data).lookup k = some v) ∧
        (modelDefaults.lookup k = none → (repo_create_obj modelDefaults data).lookup k = none)) ∧
      (∀ k, k ∉ data.map Prod.fst →
        (repo_create_obj modelDefaults data).lookup k = modelDefaults.lookup k)) ∧
    (((repo_update_obj entity data).map Prod.fst = entity.map Prod.fst) ∧
      (∀ k v, (k, v) ∈ data →
        ((entity.lookup k).isSome = true → (repo_update_obj entity data).lookup k = some v) ∧
        (entity.lookup k = none → (repo_update_obj entity data).lookup k = none)) ∧
      (∀ k, k ∉ data.map Prod.fst →
        (repo_update_obj entity data).lookup k = entity.lookup k)) :=
  ⟨apply_entity_data_spec modelDefaults data hnd, apply_entity_data_spec entity data hnd⟩

/-- C6, witness: the field copy evaluated on the demo entity — the known key
is updated, the unknown key is ignored, the untouched key keeps its value. -/
theorem field_copy_frame_witness :
    (demoObjData.map Prod.fst).Nodup ∧
    (repo_update_obj demoObjDefaults demoObjData).lookup "title" = some "new-title" ∧
    (repo_update_obj demoObjDefaults demoObjData).lookup "unknown_key" = none ∧
    (repo_update_obj demoObjDefaults demoObjData).lookup "cust" = some "old-cust" :=
  have hmain := create_update_field_copy_frame demoObjDefaults demoObjDefaults demoObjData
    (by decide)
  ⟨by decide,
    ((hmain.2.2.1 "title" "new-title" (by decide)).1 (by decide)),
    ((hmain.2.2.1 "unknown_key" "ignored" (by decide)).2 (by decide)),
    (hmain.2.2.2 "cust" (by decide))⟩

/-- C2: every order returned by `get_dueouts(start, end)` is unshipped
(`datout` null), has a non-null `dueout`, a log-type among TR/DP/AA/DTF, a
null `deleted_at`, and a `dueout` within the inclusive bounds whenever they
are given; and the returned list is ordered by `dueout` ascending. -/
theorem get_dueouts_spec (store : List Order) (start «end» : Option Nat) (o : Order)
    (ho : o ∈ get_dueouts store start «end») :
    o.datout = none ∧ o.dueout.isSome = true ∧
    (o.logtype = some "TR" ∨ o.logtype = some "DP" ∨ o.logtype = some "AA" ∨
      o.logtype = some "DTF") ∧
    o.deleted_at = none ∧
    (∀ a, start = some a → a ≤ o.dueout.getD 0) ∧
    (∀ b, «end» = some b → o.dueout.getD 0 ≤ b) ∧
    (get_dueouts store start «end»).Sorted dueLe := by
  have hsorted : (get_dueouts store start «end»).Sorted dueLe := by
    unfold get_dueouts
    exact List.sorted_insertionSort dueLe _
  unfold get_dueouts at ho
  rw [List.mem_insertionSort] at ho
  cases start with
  | none =>
    cases «end» with
    | none =>
      simp only [List.mem_filter, Bool.and_eq_true, Bool.or_eq_true, beq_iff_eq,
        Option.isNone_iff_eq_none, decide_eq_true_eq] at ho
      obtain ⟨⟨⟨⟨_, hdel⟩, hlt⟩, hdat⟩, hdue⟩ := ho
      refine ⟨hdat, hdue, ?_, hdel, ?_, ?_, hsorted⟩
      · tauto
      · intro a2 ha
        exact Option.noConfusion ha
      · intro b2 hb
        exact Option.noConfusion hb
    | some b =>
      simp only [List.mem_filter, Bool.and_eq_true, Bool.or_eq_true, beq_iff_eq,
        Option.isNone_iff_eq_none, decide_eq_true_eq] at ho
      obtain ⟨⟨⟨⟨⟨_, hdel⟩, hlt⟩, hdat⟩, hdue⟩, hle⟩ := ho
      refine ⟨hdat, hdue, ?_, hdel, ?_, ?_, hsorted⟩
      · tauto
      · intro a2 ha
        exact Option.noConfusion ha
      · intro b2 hb
        exact (Option.some.inj hb) ▸ hle
  | some a =>
    cases «end» with
    | none =>
      simp only [List.mem_filter, Bool.and_eq_true, Bool.or_eq_true, beq_iff_eq,
        Option.isNone_iff_eq_none, decide_eq_true_eq] at ho
      obtain ⟨⟨⟨⟨⟨_, hdel⟩, hlt⟩, hdat⟩, hdue⟩, hge⟩ := ho
      refine ⟨hdat, hdue, ?_, hdel, ?_, ?_, hsorted⟩
      · tauto
      · intro a2 ha
        exact (Option.some.inj ha) ▸ hge
      · intro b2 hb
        exact Option.noConfusion hb
    | some b =>
      simp only [List.mem_filter, Bool.and_eq_true, Bool.or_eq_true, beq_iff_eq,
        Option.isNone_iff_eq_none, decide_eq_true_eq] at ho
      obtain ⟨⟨⟨⟨⟨⟨_, hdel⟩, hlt⟩, hdat⟩, hdue⟩, hge⟩, hle⟩ := ho
      refine ⟨hdat, hdue, ?_, hdel, ?_, ?_, hsorted⟩
      · tauto
      · intro a2 ha
        exact (Option.some.inj ha) ▸ hge
      · intro b2 hb
        exact (Option.some.inj hb) ▸ hle

/-- C2, witness: the demo store evaluated at bounds `[3, 9]` — the early
direct-print order is returned and every guaranteed property holds of it. -/
theorem get_dueouts_witness :
    demoDueEarly ∈ get_dueouts demoDueStore (some 3) (some 9) ∧
    (demoDueEarly.datout = none ∧ demoDueEarly.dueout.isSome = true ∧
      (demoDueEarly.logtype = some "TR" ∨ demoDueEarly.logtype = some "DP" ∨
        demoDueEarly.logtype = some "AA" ∨ demoDueEarly.logtype = some "DTF") ∧
      demoDueEarly.deleted_at = none ∧
      (∀ a, (some 3 : Option Nat) = some a → a ≤ demoDueEarly.dueout.getD 0) ∧
      (∀ b, (some 9 : Option Nat) = some b → demoDueEarly.dueout.getD 0 ≤ b) ∧
      (get_dueouts demoDueStore (some 3) (some 9)).Sorted dueLe) :=
  ⟨by decide, get_dueouts_spec demoDueStore (some 3) (some 9) demoDueEarly (by decide)⟩

/-- C3, counterexample: a create whose business key passed the service-level
pre-check (`orderExists` is false — only a soft-deleted row holds the log) but
is rejected by the store's unique index surfaces the **raw storage exception**
(`IntegrityError`, here `dbError`), not the typed conflict `ValueError` the
claim requires. -/
theorem conflict_translation_counterexample :
    orderExists [demoDeletedOrder] "ABCDE" = false ∧
    orderServiceCreate 100 [demoDeletedOrder] demoOrderData =
      .error (.dbError (.uniqueViolation "log")) ∧
    isServiceConflict (.dbError (.uniqueViolation "log")) = false := by
  refine ⟨?_, ?_, rfl⟩ <;> decide

/-- C3 (amended): when the store's unique-constraint check rejects a duplicate
business key that passed the service-level pre-check, `BaseService.create`
logs and re-raises the storage exception **unchanged** — the raw
`IntegrityError` reaches the service's caller; no translation into the typed
conflict error happens anywhere in the service layer. -/
theorem store_conflict_reaches_caller_raw (today : Nat) (store : List Order)
    (d vd : OrderData) (l : String) (r : Order)
    (hval : validate_and_sanitize_order_data today d = .ok vd)
    (hlog : vd.log = some l)
    (hpre : orderExists store l = false)
    (hr : r ∈ store) (hrl : r.log = some l)
    (hent : Order.validate_data today (orderFromData store vd) = []) :
    orderServiceCreate today store d = .error (.dbError (.uniqueViolation "log")) := by
  have hkeep := hpre
  unfold orderServiceCreate
  rw [hval]
  dsimp only
  unfold orderRepoCreate dbInsertOrder
  rw [hent]
  have hol : (orderFromData store vd).log = some l := by
    unfold orderFromData
    exact hlog
  rw [hol]
  have hany : store.any (fun r2 => r2.log == some l) = true := by
    rw [List.any_eq_true]
    exact ⟨r, hr, by simp [hrl]⟩
  simp [hany]

/-- C3, witness: every hypothesis of the amended theorem discharged on the
soft-deleted-duplicate store. -/
theorem store_conflict_raw_witness :
    validate_and_sanitize_order_data 100 demoOrderData = .ok demoValidatedData ∧
    demoValidatedData.log = some "ABCDE" ∧
    orderExists [demoDeletedOrder] "ABCDE" = false ∧
    demoDeletedOrder ∈ [demoDeletedOrder] ∧
    demoDeletedOrder.log = some "ABCDE" ∧
    Order.validate_data 100 (orderFromData [demoDeletedOrder] demoValidatedData) = [] ∧
    orderServiceCreate 100 [demoDeletedOrder] demoOrderData =
      .error (.dbError (.uniqueViolation "log")) :=
  ⟨by decide, rfl, by decide, by decide, rfl, by decide,
    store_conflict_reaches_caller_raw 100 [demoDeletedOrder] demoOrderData demoValidatedData
      "ABCDE" demoDeletedOrder (by decide) rfl (by decide) (by decide) rfl (by decide)⟩

/-- C4, counterexample: with `alice` soft-deleted, `create_user("alice",
"fresh@x.com", ...)` does not succeed — the claim asserts it persists a new
active user, but the call errors out (the validator never emits the `email`
key, so the service dies on `KeyError` before reaching the store, whose
table-wide unique index would reject the reuse anyway). -/
theorem username_reuse_counterexample :
    create_user [demoDeletedAlice] "alice" "fresh@x.com" "password123" "user" =
      .error (.keyError "email") := by decide

/-- `validate_and_sanitize_user_data` never emits an `email` binding. -/
theorem validate_user_data_no_email (data vd : List (String × String))
    (h : validate_and_sanitize_user_data data = .ok vd) :
    vd.lookup "email" = none := by
  unfold validate_and_sanitize_user_data at h
  dsimp only at h
  repeat' split at h
  all_goals
    first
    | (injection h with h2; rw [← h2]; simp [List.lookup])
    | simp at h

/-- C4 (amended): business-key uniqueness is **not** scoped to active records.
`createUser` can never persist a user at all (the missing `email` key aborts
every call), and independently the store's unique index on `username` spans
soft-deleted rows: inserting any valid user whose username an existing row —
deleted or not — already holds is rejected with the unique-constraint
violation, so a soft-deleted user's username cannot be reused. -/
theorem username_reuse_always_fails :
    (∀ (store : List User) (username email password role : String),
      ∃ e, create_user store username email password role = .error e) ∧
    (∀ (store : List User) (u : User) (un : String),
      User.validate_data u = [] → u.username = some un →
      (∃ r ∈ store, r.username = some un) →
      dbInsertUser store u = .error (.dbError (.uniqueViolation "username"))) := by
  constructor
  · intro store username email password role
    unfold create_user
    dsimp only
    cases hv : validate_and_sanitize_user_data
        [("username", pySanitize username), ("email", pySanitize email),
         ("password", password), ("role", pySanitize role)] with
    | error e => exact ⟨e, rfl⟩
    | ok vd =>
      have hvd : vd.lookup "email" = none := validate_user_data_no_email _ _ hv
      cases hu : vd.lookup "username" with
      | none =>
        refine ⟨.keyError "username", ?_⟩
        show (match pyDictGet vd "username" with
          | .error e => Except.error e
          | .ok un => _) = _
        unfold pyDictGet
        rw [hu]
      | some un =>
        have hun : pyDictGet vd "username" = .ok un := by
          unfold pyDictGet
          rw [hu]
        have hem : pyDictGet vd "email" = .error (.keyError "email") := by
          unfold pyDictGet
          rw [hvd]
        cases hf : userFindByUsername store un with
        | some u0 =>
          refine ⟨.valueError ("User with username " ++ un ++ " already exists"), ?_⟩
          show (match pyDictGet vd "username" with
            | .error e => Except.error e
            | .ok un => _) = _
          rw [hun]
          show (match userFindByUsername store un with
            | some _ => _
            | none => _) = _
          rw [hf]
        | none =>
          refine ⟨.keyError "email", ?_⟩
          show (match pyDictGet vd "username" with
            | .error e => Except.error e
            | .ok un => _) = _
          rw [hun]
          show (match userFindByUsername store un with
            | some _ => _
            | none => _) = _
          rw [hf]
          show (match pyDictGet vd "email" with
            | .error e => Except.error e
            | .ok em => _) = _
          rw [hem]
  · intro store u un hvalid hun hex
    unfold dbInsertUser
    rw [hvalid, hun]
    have hany : store.any (fun r => r.username == some un) = true := by
      rw [List.any_eq_true]
      obtain ⟨r, hr, hru⟩ := hex
      exact ⟨r, hr, by simp [hru]⟩
    simp [hany]

/-- C4, witness: the amended theorem evaluated on the soft-deleted-`alice`
store — `create_user` fails, and the direct insert of a valid fresh row
reusing the username is rejected by the unique index. -/
theorem username_reuse_always_fails_witness :
    (∃ e, create_user [demoDeletedAlice] "alice" "fresh2@x.com" "password123" "user" =
      .error e) ∧
    User.validate_data demoNewAlice = [] ∧
    demoNewAlice.username = some "alice" ∧
    (∃ r ∈ [demoDeletedAlice], r.username = some "alice") ∧
    dbInsertUser [demoDeletedAlice] demoNewAlice =
      .error (.dbError (.uniqueViolation "username")) :=
  ⟨username_reuse_always_fails.1 [demoDeletedAlice] "alice" "fresh2@x.com" "password123" "user",
    by decide, rfl, by decide,
    username_reuse_always_fails.2 [demoDeletedAlice] demoNewAlice "alice"
      (by decide) rfl (by decide)⟩

end FirstStreet
